import Mathlib

/-!
Verification of the particle-physics core (`Physics` class) of the
gravity-sculptor repository.  The definitions below are a shallow embedding
of the source: typed-array state becomes a list of `Particle` records,
`Math.random()` draws become explicitly passed values in `[0, 1)`, and
`Date.now()` becomes an explicit `now : ℝ` argument.  Floating-point
arithmetic is idealised as real arithmetic; `Real.sqrt` stands for
`Math.sqrt`.
-/

noncomputable section

namespace Gravity

/-- A 3-component acceleration/vector value. -/
structure Vec3 where
  x : ℝ
  y : ℝ
  z : ℝ

def Vec3.zero : Vec3 := ⟨0, 0, 0⟩

def Vec3.add (a b : Vec3) : Vec3 := ⟨a.x + b.x, a.y + b.y, a.z + b.z⟩

/-- One particle of the simulation: position, velocity, mass, lifetime
(one slot of the `positions`/`velocities`/`masses`/`lifetimes` arrays). -/
structure Particle where
  px : ℝ
  py : ℝ
  pz : ℝ
  vx : ℝ
  vy : ℝ
  vz : ℝ
  mass : ℝ
  lifetime : ℝ

/-- Magnitude of a particle's velocity, as `getSpeeds` computes it. -/
def Particle.speed (p : Particle) : ℝ :=
  Real.sqrt (p.vx * p.vx + p.vy * p.vy + p.vz * p.vz)

/-- A caller-supplied gravity-well descriptor `{ x, y, z, strength }`. -/
structure WellInput where
  x : ℝ
  y : ℝ
  z : ℝ
  strength : ℝ

/-- A caller-supplied hand velocity `{ vx, vy }`. -/
structure HandVel where
  vx : ℝ
  vy : ℝ

/-- A well after conversion to world space inside `update`. -/
structure Well where
  x : ℝ
  y : ℝ
  z : ℝ
  strength : ℝ
  vx : ℝ
  vy : ℝ

/-- A drawing-path point `{ x, y, time }` supplied to `update`. -/
structure PathPoint where
  x : ℝ
  y : ℝ
  time : ℝ

/-- The `Math.random()` draws one loop iteration may consume:
turbulence jitter (x, y), and the five draws of `respawnParticle`
(angle, radius, z offset, vx, vy). -/
structure Draws where
  turbX : ℝ
  turbY : ℝ
  angle : ℝ
  radius : ℝ
  zr : ℝ
  rvx : ℝ
  rvy : ℝ

/-- Every draw lies in `[0, 1)`, as `Math.random()` guarantees. -/
def Draws.valid (r : Draws) : Prop :=
  (0 ≤ r.turbX ∧ r.turbX < 1) ∧ (0 ≤ r.turbY ∧ r.turbY < 1) ∧
  (0 ≤ r.angle ∧ r.angle < 1) ∧ (0 ≤ r.radius ∧ r.radius < 1) ∧
  (0 ≤ r.zr ∧ r.zr < 1) ∧ (0 ≤ r.rvx ∧ r.rvx < 1) ∧ (0 ≤ r.rvy ∧ r.rvy < 1)

/-- The constant-function random stream. -/
def constDraws (r : Draws) : ℕ → Draws := fun _ => r

/-- All draws equal to `0.5`. -/
def halfDraws : Draws := ⟨0.5, 0.5, 0.5, 0.5, 0.5, 0.5, 0.5⟩

/-- All draws equal to `0.75`. -/
def upDraws : Draws := ⟨0.75, 0.75, 0.75, 0.75, 0.75, 0.75, 0.75⟩

/-- The tunable scalar state of the `Physics` object. -/
structure PhysicsParams where
  G : ℝ
  drag : ℝ
  maxVelocity : ℝ
  minDistance : ℝ
  fieldRadius : ℝ
  chaosMode : Bool
  chaosFactor : ℝ
  attractMode : Bool

/-- The constructor's values: `G = 0.00015`, `drag = 0.995`,
`maxVelocity = 0.08`, `minDistance = 0.05`, `fieldRadius = 2.5`,
`chaosMode = false`, `chaosFactor = 1.0`, `attractMode = true`. -/
def defaultParams : PhysicsParams :=
  { G := 0.00015, drag := 0.995, maxVelocity := 0.08, minDistance := 0.05,
    fieldRadius := 2.5, chaosMode := false, chaosFactor := 1, attractMode := true }

/-- The gravitational constant `update` computes on entry:
`G * (chaosMode ? chaosFactor * 2 : 1)`. -/
def effectiveG (pp : PhysicsParams) : ℝ :=
  pp.G * (if pp.chaosMode then pp.chaosFactor * 2 else 1)

/-- `toggleChaosMode`: flip the flag, then set `chaosFactor` from the new flag. -/
def toggleChaosMode (pp : PhysicsParams) : PhysicsParams :=
  let cm := !pp.chaosMode
  { pp with chaosMode := cm, chaosFactor := if cm then 3 else 1 }

/-- The world-space conversion `update` applies to its well descriptors:
`x*1.5, y*1.2, z*0.5`, pairing each with the hand velocity of the same
index (a missing entry contributes zero). -/
def scaleWellsFrom (hv : List HandVel) : ℕ → List WellInput → List Well
  | _, [] => []
  | i, w :: ws =>
    { x := w.x * 1.5, y := w.y * 1.2, z := w.z * 0.5, strength := w.strength,
      vx := (hv.getD i ⟨0, 0⟩).vx, vy := (hv.getD i ⟨0, 0⟩).vy }
      :: scaleWellsFrom hv (i + 1) ws

def scaleWells (gravityWells : List WellInput) (handVelocities : List HandVel) : List Well :=
  scaleWellsFrom handVelocities 0 gravityWells

/-- The merge computed when exactly two wells are supplied and their planar
(world-space) distance is below `0.5`. -/
def mergedWell : List Well → Option Well
  | [w0, w1] =>
    let dx := w0.x - w1.x
    let dy := w0.y - w1.y
    let dist := Real.sqrt (dx * dx + dy * dy)
    if dist < 0.5 then
      let mergeFactor := 1 - dist / 0.5
      some { x := (w0.x + w1.x) / 2, y := (w0.y + w1.y) / 2, z := (w0.z + w1.z) / 2,
             strength := (w0.strength + w1.strength) * (1 + mergeFactor * 0.5),
             vx := (w0.vx + w1.vx) / 2, vy := (w0.vy + w1.vy) / 2 }
    else none
  | _ => none

/-- The well list the per-particle loop iterates over:
`mergedWell ? [mergedWell] : wells`. -/
def effectiveWells (wells : List Well) : List Well :=
  match mergedWell wells with
  | some m => [m]
  | none => wells

/-- Euclidean distance from a particle to a world-space well. -/
def wellDist (p : Particle) (w : Well) : ℝ :=
  Real.sqrt ((w.x - p.px) * (w.x - p.px) + (w.y - p.py) * (w.y - p.py) +
    (w.z - p.pz) * (w.z - p.pz))

/-- One well's contribution to a particle's acceleration: softened
inverse-square gravity inside `fieldRadius`, plus the slingshot term when
the hand moves fast and the particle is close.  Note the source computes
`invDist = 1 / dist` from the raw distance, not the softened one. -/
def wellAccel (pp : PhysicsParams) (p : Particle) (w : Well) : Vec3 :=
  let dx := w.x - p.px
  let dy := w.y - p.py
  let dz := w.z - p.pz
  let dist := wellDist p w
  if dist < pp.fieldRadius then
    let softDist := max dist pp.minDistance
    let force := effectiveG pp * w.strength / (softDist * softDist)
    let invDist := 1 / dist
    let direction : ℝ := if pp.attractMode then 1 else -1
    let ax := dx * invDist * force * direction
    let ay := dy * invDist * force * direction
    let az := dz * invDist * force * direction
    let handSpeed := Real.sqrt (w.vx * w.vx + w.vy * w.vy)
    if handSpeed > 0.01 ∧ dist < 0.5 then
      let slingshotForce := handSpeed * 0.5 * (1 - dist / 0.5)
      ⟨ax + w.vx * slingshotForce, ay + w.vy * slingshotForce, az⟩
    else
      ⟨ax, ay, az⟩
  else
    Vec3.zero

/-- One path point's contribution: linear age fade over 8000 time units,
attraction in the band `0.01 < dist < 0.6`. -/
def pathAccel (now : ℝ) (p : Particle) (pt : PathPoint) : Vec3 :=
  let age := (now - pt.time) / 8000
  if age < 1 then
    let strength := (1 - age) * 0.0005
    let dx := pt.x - p.px
    let dy := pt.y - p.py
    let dist := Real.sqrt (dx * dx + dy * dy)
    if dist < 0.6 ∧ dist > 0.01 then
      let force := strength / (dist + 0.03)
      ⟨dx / dist * force, dy / dist * force, 0⟩
    else Vec3.zero
  else Vec3.zero

/-- Chaos-mode turbulence jitter, `(Math.random() - 0.5) * 0.0002` on x/y. -/
def turbAccel (pp : PhysicsParams) (r : Draws) : Vec3 :=
  if pp.chaosMode then ⟨(r.turbX - 0.5) * 0.0002, (r.turbY - 0.5) * 0.0002, 0⟩
  else Vec3.zero

/-- The whole acceleration one loop iteration accumulates for a particle. -/
def totalAccel (pp : PhysicsParams) (wells : List Well) (paths : List PathPoint)
    (now : ℝ) (r : Draws) (p : Particle) : Vec3 :=
  let aWells := wells.foldl (fun a w => a.add (wellAccel pp p w)) Vec3.zero
  let aPaths := paths.foldl (fun a pt => a.add (pathAccel now p pt)) Vec3.zero
  (aWells.add aPaths).add (turbAccel pp r)

/-- Velocity integration with drag, the `maxVelocity` clamp, and the
position update (steps of the loop body before the respawn check). -/
def integrate (pp : PhysicsParams) (a : Vec3) (dt : ℝ) (p : Particle) : Particle :=
  let vx1 := (p.vx + a.x * dt) * pp.drag
  let vy1 := (p.vy + a.y * dt) * pp.drag
  let vz1 := (p.vz + a.z * dt) * pp.drag
  let speed := Real.sqrt (vx1 * vx1 + vy1 * vy1 + vz1 * vz1)
  let s := if speed > pp.maxVelocity then pp.maxVelocity / speed else 1
  let vx2 := vx1 * s
  let vy2 := vy1 * s
  let vz2 := vz1 * s
  { px := p.px + vx2 * dt, py := p.py + vy2 * dt, pz := p.pz + vz2 * dt,
    vx := vx2, vy := vy2, vz := vz2, mass := p.mass, lifetime := p.lifetime }

/-- `respawnParticle`: random point at planar radius `0.1 + r*0.3`, small
random x/y velocity, zero z velocity, lifetime reset to `0`. -/
def respawnParticle (r : Draws) (p : Particle) : Particle :=
  let angle := r.angle * (2 * Real.pi)
  let radius := 0.1 + r.radius * 0.3
  { px := Real.cos angle * radius, py := Real.sin angle * radius,
    pz := (r.zr - 0.5) * 0.1,
    vx := (r.rvx - 0.5) * 0.01, vy := (r.rvy - 0.5) * 0.01, vz := 0,
    mass := p.mass, lifetime := 0 }

/-- One iteration of `update`'s per-particle loop: accelerate, integrate,
respawn when the new position has `x² + y² > 16`, then advance lifetime. -/
def stepParticle (pp : PhysicsParams) (wells : List Well) (paths : List PathPoint)
    (now dt : ℝ) (r : Draws) (p : Particle) : Particle :=
  let p1 := integrate pp (totalAccel pp wells paths now r p) dt p
  let p2 := if p1.px * p1.px + p1.py * p1.py > 16 then respawnParticle r p1 else p1
  { p2 with lifetime := min 1 (p2.lifetime + 0.001) }

/-- The indexed loop over the particle array. -/
def updateLoop (pp : PhysicsParams) (wells : List Well) (paths : List PathPoint)
    (now dt : ℝ) (rnd : ℕ → Draws) : ℕ → List Particle → List Particle
  | _, [] => []
  | i, p :: ps =>
    stepParticle pp wells paths now dt (rnd i) p
      :: updateLoop pp wells paths now dt rnd (i + 1) ps

/-- `Physics.update(gravityWells, handVelocities, dt, pathForces)`:
scale the wells to world space, merge when two are close, then run the
per-particle loop. -/
def update (pp : PhysicsParams) (ps : List Particle) (gravityWells : List WellInput)
    (handVelocities : List HandVel) (dt : ℝ) (pathForces : List PathPoint)
    (now : ℝ) (rnd : ℕ → Draws) : List Particle :=
  updateLoop pp (effectiveWells (scaleWells gravityWells handVelocities))
    pathForces now dt rnd 0 ps

/-- The per-particle body of `applyExplosion`: radial outward kick in the
band `0.01 < dist < 1.5` around the scaled point `(x*1.5, y*1.2)`. -/
def explosionKick (x y strength : ℝ) (p : Particle) : Particle :=
  let worldX := x * 1.5
  let worldY := y * 1.2
  let explosionForce := 0.08 * strength
  let explosionRadius : ℝ := 1.5
  let dx := p.px - worldX
  let dy := p.py - worldY
  let dist := Real.sqrt (dx * dx + dy * dy)
  if dist < explosionRadius ∧ dist > 0.01 then
    let force := explosionForce * (1 - dist / explosionRadius)
    let invDist := 1 / dist
    { p with vx := p.vx + dx * invDist * force, vy := p.vy + dy * invDist * force }
  else p

/-- `Physics.applyExplosion(x, y, strength)`. -/
def applyExplosion (x y strength : ℝ) (ps : List Particle) : List Particle :=
  ps.map (explosionKick x y strength)

/-- The per-particle body of `applyImplosion`: radial inward kick in the
band `0.01 < dist < 2.0` around the scaled point `(x*1.5, y*1.2)`. -/
def implosionKick (x y strength : ℝ) (p : Particle) : Particle :=
  let worldX := x * 1.5
  let worldY := y * 1.2
  let implosionForce := 0.06 * strength
  let implosionRadius : ℝ := 2.0
  let dx := worldX - p.px
  let dy := worldY - p.py
  let dist := Real.sqrt (dx * dx + dy * dy)
  if dist < implosionRadius ∧ dist > 0.01 then
    let force := implosionForce * (1 - dist / implosionRadius)
    let invDist := 1 / dist
    { p with vx := p.vx + dx * invDist * force, vy := p.vy + dy * invDist * force }
  else p

/-- `Physics.applyImplosion(x, y, strength)`. -/
def applyImplosion (x y strength : ℝ) (ps : List Particle) : List Particle :=
  ps.map (implosionKick x y strength)

/-- The explosion body expressed directly at a world-space point — the
lines of `applyExplosion` after `worldX`/`worldY` are formed. -/
def worldExplosionKick (worldX worldY strength : ℝ) (p : Particle) : Particle :=
  let explosionForce := 0.08 * strength
  let explosionRadius : ℝ := 1.5
  let dx := p.px - worldX
  let dy := p.py - worldY
  let dist := Real.sqrt (dx * dx + dy * dy)
  if dist < explosionRadius ∧ dist > 0.01 then
    let force := explosionForce * (1 - dist / explosionRadius)
    let invDist := 1 / dist
    { p with vx := p.vx + dx * invDist * force, vy := p.vy + dy * invDist * force }
  else p

/-- The implosion body expressed directly at a world-space point — the
lines of `applyImplosion` after `worldX`/`worldY` are formed. -/
def worldImplosionKick (worldX worldY strength : ℝ) (p : Particle) : Particle :=
  let implosionForce := 0.06 * strength
  let implosionRadius : ℝ := 2.0
  let dx := worldX - p.px
  let dy := worldY - p.py
  let dist := Real.sqrt (dx * dx + dy * dy)
  if dist < implosionRadius ∧ dist > 0.01 then
    let force := implosionForce * (1 - dist / implosionRadius)
    let invDist := 1 / dist
    { p with vx := p.vx + dx * invDist * force, vy := p.vy + dy * invDist * force }
  else p

/-- A call the external layer can make against the particle set. -/
inductive SimOp where
  | advance (pp : PhysicsParams) (gravityWells : List WellInput)
      (handVelocities : List HandVel) (dt : ℝ) (pathForces : List PathPoint)
      (now : ℝ) (rnd : ℕ → Draws)
  | explosion (x y strength : ℝ)
  | implosion (x y strength : ℝ)

def applyOp (ps : List Particle) : SimOp → List Particle
  | .advance pp gw hv dt paths now rnd => update pp ps gw hv dt paths now rnd
  | .explosion x y s => applyExplosion x y s ps
  | .implosion x y s => applyImplosion x y s ps

/-- Run a sequence of `update` / impulse calls. -/
def runOps (ps : List Particle) (ops : List SimOp) : List Particle :=
  ops.foldl applyOp ps

/-! ## Helper lemmas -/

lemma sqrt_le_of_le_mul_self {S c : ℝ} (hc : 0 ≤ c) (h : S ≤ c * c) :
    Real.sqrt S ≤ c :=
  calc Real.sqrt S ≤ Real.sqrt (c * c) := Real.sqrt_le_sqrt h
    _ = c := Real.sqrt_mul_self hc

/-- The velocity clamp leaves a speed of at most `maxV`: either the speed was
already below the bound, or it is rescaled to exactly `maxV`. -/
lemma clampSpeed_le (maxV vx vy vz : ℝ) (hm : 0 < maxV) :
    Real.sqrt
      (vx * (if Real.sqrt (vx * vx + vy * vy + vz * vz) > maxV then
          maxV / Real.sqrt (vx * vx + vy * vy + vz * vz) else 1) *
        (vx * (if Real.sqrt (vx * vx + vy * vy + vz * vz) > maxV then
          maxV / Real.sqrt (vx * vx + vy * vy + vz * vz) else 1)) +
       vy * (if Real.sqrt (vx * vx + vy * vy + vz * vz) > maxV then
          maxV / Real.sqrt (vx * vx + vy * vy + vz * vz) else 1) *
        (vy * (if Real.sqrt (vx * vx + vy * vy + vz * vz) > maxV then
          maxV / Real.sqrt (vx * vx + vy * vy + vz * vz) else 1)) +
       vz * (if Real.sqrt (vx * vx + vy * vy + vz * vz) > maxV then
          maxV / Real.sqrt (vx * vx + vy * vy + vz * vz) else 1) *
        (vz * (if Real.sqrt (vx * vx + vy * vy + vz * vz) > maxV then
          maxV / Real.sqrt (vx * vx + vy * vy + vz * vz) else 1))) ≤ maxV := by
  set w := Real.sqrt (vx * vx + vy * vy + vz * vz) with hw
  by_cases h : w > maxV
  · rw [if_pos h]
    have hw0 : 0 < w := lt_trans hm h
    have hs0 : 0 ≤ maxV / w := le_of_lt (div_pos hm hw0)
    have hsum : vx * (maxV / w) * (vx * (maxV / w)) + vy * (maxV / w) * (vy * (maxV / w)) +
        vz * (maxV / w) * (vz * (maxV / w))
        = maxV / w * (maxV / w) * (vx * vx + vy * vy + vz * vz) := by ring
    rw [hsum, Real.sqrt_mul (mul_nonneg hs0 hs0), Real.sqrt_mul_self hs0, ← hw,
      div_mul_cancel₀ maxV (ne_of_gt hw0)]
  · rw [if_neg h]
    simp only [mul_one]
    exact le_of_not_lt h

/-- After `integrate`, the particle's speed never exceeds `maxVelocity`. -/
lemma integrate_speed_le (pp : PhysicsParams) (a : Vec3) (dt : ℝ) (p : Particle)
    (hm : 0 < pp.maxVelocity) :
    (integrate pp a dt p).speed ≤ pp.maxVelocity :=
  clampSpeed_le pp.maxVelocity ((p.vx + a.x * dt) * pp.drag)
    ((p.vy + a.y * dt) * pp.drag) ((p.vz + a.z * dt) * pp.drag) hm

/-- A respawned particle's speed is far below the clamp. -/
lemma respawn_speed_le (r : Draws) (p : Particle) (hr : r.valid) :
    (respawnParticle r p).speed ≤ 0.08 := by
  obtain ⟨-, -, -, -, -, ⟨hx0, hx1⟩, ⟨hy0, hy1⟩⟩ := hr
  refine sqrt_le_of_le_mul_self (by norm_num) ?_
  show (r.rvx - 0.5) * 0.01 * ((r.rvx - 0.5) * 0.01) +
      (r.rvy - 0.5) * 0.01 * ((r.rvy - 0.5) * 0.01) + 0 * 0 ≤ 0.08 * 0.08
  nlinarith [sq_nonneg (r.rvx - 0.5), sq_nonneg (r.rvy - 0.5)]

/-- The final lifetime write does not change the velocity, hence the speed. -/
lemma speed_set_lifetime (q : Particle) (l : ℝ) :
    ({ q with lifetime := l } : Particle).speed = q.speed := rfl

/-- The speed of a stepped particle is the speed of the integrated particle,
or of its respawn when the boundary check fires. -/
lemma stepParticle_speed (pp : PhysicsParams) (wells : List Well)
    (paths : List PathPoint) (now dt : ℝ) (r : Draws) (p : Particle) :
    (stepParticle pp wells paths now dt r p).speed =
      (if (integrate pp (totalAccel pp wells paths now r p) dt p).px *
            (integrate pp (totalAccel pp wells paths now r p) dt p).px +
          (integrate pp (totalAccel pp wells paths now r p) dt p).py *
            (integrate pp (totalAccel pp wells paths now r p) dt p).py > 16 then
        (respawnParticle r (integrate pp (totalAccel pp wells paths now r p) dt p)).speed
      else
        (integrate pp (totalAccel pp wells paths now r p) dt p).speed) := by
  simp only [stepParticle]
  split_ifs with h <;> rfl

/-- Every element of the update loop's output is a stepped input particle. -/
lemma mem_updateLoop {pp : PhysicsParams} {wells : List Well}
    {paths : List PathPoint} {now dt : ℝ} {rnd : ℕ → Draws} :
    ∀ {i : ℕ} {ps : List Particle} {q : Particle},
      q ∈ updateLoop pp wells paths now dt rnd i ps →
      ∃ j p, p ∈ ps ∧ q = stepParticle pp wells paths now dt (rnd j) p := by
  intro i ps
  induction ps generalizing i with
  | nil => intro q h; cases h
  | cons p ps ih =>
    intro q h
    rcases List.mem_cons.mp h with h | h
    · exact ⟨i, p, List.mem_cons_self p ps, h⟩
    · obtain ⟨j, p', hp', hq⟩ := ih h
      exact ⟨j, p', List.mem_cons_of_mem p hp', hq⟩

/-- The update loop is an indexed map. -/
lemma updateLoop_getElem? (pp : PhysicsParams) (wells : List Well)
    (paths : List PathPoint) (now dt : ℝ) (rnd : ℕ → Draws) :
    ∀ (i j : ℕ) (ps : List Particle),
      (updateLoop pp wells paths now dt rnd i ps)[j]? =
        ps[j]?.map (fun p => stepParticle pp wells paths now dt (rnd (i + j)) p) := by
  intro i j ps
  induction ps generalizing i j with
  | nil => simp [updateLoop]
  | cons p ps ih =>
    cases j with
    | zero => simp [updateLoop]
    | succ j =>
      simp only [updateLoop, List.getElem?_cons_succ, ih (i + 1) j,
        show i + 1 + j = i + (j + 1) from by omega]

/-! ## C1 -/

/-- C1: after any `update` call — whatever the wells, hand velocities, `dt`
and path points — every particle's velocity magnitude is at most
`maxVelocity = 0.08`: the clamp enforces it and a respawn assigns a far
smaller velocity. -/
theorem velocity_clamp_invariant (pp : PhysicsParams) (ps : List Particle)
    (gw : List WellInput) (hv : List HandVel) (dt : ℝ) (paths : List PathPoint)
    (now : ℝ) (rnd : ℕ → Draws)
    (hmax : pp.maxVelocity = 0.08) (hr : ∀ i, (rnd i).valid) :
    ∀ q ∈ update pp ps gw hv dt paths now rnd, q.speed ≤ 0.08 := by
  intro q hq
  obtain ⟨j, p, -, rfl⟩ := mem_updateLoop hq
  rw [stepParticle_speed]
  split_ifs with h
  · exact respawn_speed_le _ _ (hr j)
  · exact hmax ▸ integrate_speed_le pp _ dt p (by rw [hmax]; norm_num)

/-- C1 witness: a concrete particle, faster than the clamp allows, ends the
call within the bound. -/
theorem velocity_clamp_invariant_witness :
    Particle.speed (stepParticle defaultParams [] [] 0 1 halfDraws
      ⟨0, 0, 0, 0.2, 0, 0, 1, 0⟩) ≤ 0.08 := by
  have h := velocity_clamp_invariant defaultParams [⟨0, 0, 0, 0.2, 0, 0, 1, 0⟩]
    [] [] 1 [] 0 (constDraws halfDraws) (by norm_num [defaultParams])
    (fun i => by norm_num [constDraws, halfDraws, Draws.valid])
  exact h _ (by
    simp [update, updateLoop, effectiveWells, scaleWells, scaleWellsFrom,
      mergedWell, constDraws])

/-- When the boundary check fires, the step's result is the respawned
particle with its lifetime advanced by the same iteration's increment. -/
lemma stepParticle_respawn (pp : PhysicsParams) (wells : List Well)
    (paths : List PathPoint) (now dt : ℝ) (r : Draws) (p : Particle)
    (h : (integrate pp (totalAccel pp wells paths now r p) dt p).px *
          (integrate pp (totalAccel pp wells paths now r p) dt p).px +
        (integrate pp (totalAccel pp wells paths now r p) dt p).py *
          (integrate pp (totalAccel pp wells paths now r p) dt p).py > 16) :
    stepParticle pp wells paths now dt r p =
      { px := Real.cos (r.angle * (2 * Real.pi)) * (0.1 + r.radius * 0.3),
        py := Real.sin (r.angle * (2 * Real.pi)) * (0.1 + r.radius * 0.3),
        pz := (r.zr - 0.5) * 0.1,
        vx := (r.rvx - 0.5) * 0.01, vy := (r.rvy - 0.5) * 0.01, vz := 0,
        mass := p.mass, lifetime := min 1 (0 + 0.001) } := by
  simp only [stepParticle]
  rw [if_pos h]
  rfl

/-- When the boundary check does not fire, only the lifetime write follows
the integration. -/
lemma stepParticle_no_respawn (pp : PhysicsParams) (wells : List Well)
    (paths : List PathPoint) (now dt : ℝ) (r : Draws) (p : Particle)
    (h : ¬ ((integrate pp (totalAccel pp wells paths now r p) dt p).px *
          (integrate pp (totalAccel pp wells paths now r p) dt p).px +
        (integrate pp (totalAccel pp wells paths now r p) dt p).py *
          (integrate pp (totalAccel pp wells paths now r p) dt p).py > 16)) :
    stepParticle pp wells paths now dt r p =
      { integrate pp (totalAccel pp wells paths now r p) dt p with
        lifetime := min 1 (p.lifetime + 0.001) } := by
  simp only [stepParticle]
  rw [if_neg h]
  rfl

/-! ## C5 -/

/-- C5: in every `update` call, a particle whose position after the
position-update step has `x² + y² > 16` is, before the call returns,
repositioned to planar distance in `[0.1, 0.4)` from the origin, given a
small random velocity (each x/y component at most `0.005` in magnitude,
exactly `0` in z), and has its lifetime reset to `0` by the respawn (the
same iteration then advances it by the fixed increment to `0.001`). -/
theorem respawn_boundary (pp : PhysicsParams) (ps : List Particle)
    (gw : List WellInput) (hv : List HandVel) (dt : ℝ) (paths : List PathPoint)
    (now : ℝ) (rnd : ℕ → Draws) (j : ℕ) (p : Particle)
    (hr : ∀ i, (rnd i).valid) (hp : ps[j]? = some p)
    (hcond : (integrate pp (totalAccel pp (effectiveWells (scaleWells gw hv))
          paths now (rnd j) p) dt p).px *
        (integrate pp (totalAccel pp (effectiveWells (scaleWells gw hv))
          paths now (rnd j) p) dt p).px +
        (integrate pp (totalAccel pp (effectiveWells (scaleWells gw hv))
          paths now (rnd j) p) dt p).py *
        (integrate pp (totalAccel pp (effectiveWells (scaleWells gw hv))
          paths now (rnd j) p) dt p).py > 16) :
    ∃ q, (update pp ps gw hv dt paths now rnd)[j]? = some q ∧
      0.1 ≤ Real.sqrt (q.px * q.px + q.py * q.py) ∧
      Real.sqrt (q.px * q.px + q.py * q.py) < 0.4 ∧
      |q.vx| ≤ 0.005 ∧ |q.vy| ≤ 0.005 ∧ q.vz = 0 ∧
      (respawnParticle (rnd j) (integrate pp (totalAccel pp
        (effectiveWells (scaleWells gw hv)) paths now (rnd j) p) dt p)).lifetime = 0 ∧
      q.lifetime = 0.001 := by
  obtain ⟨-, -, ⟨ha0, ha1⟩, ⟨hb0, hb1⟩, -, ⟨hx0, hx1⟩, ⟨hy0, hy1⟩⟩ := hr j
  refine ⟨stepParticle pp (effectiveWells (scaleWells gw hv)) paths now dt (rnd j) p,
    ?_, ?_⟩
  · rw [update, updateLoop_getElem?, hp]
    simp
  rw [stepParticle_respawn pp _ paths now dt (rnd j) p hcond]
  clear hcond hp
  set θ := (rnd j).angle * (2 * Real.pi) with hθ
  set rad := 0.1 + (rnd j).radius * 0.3 with hrad
  have hrad0 : (0.1 : ℝ) ≤ rad := by rw [hrad]; nlinarith
  have hrad1 : rad < 0.4 := by rw [hrad]; nlinarith
  have hsq : Real.cos θ * rad * (Real.cos θ * rad) +
      Real.sin θ * rad * (Real.sin θ * rad) = rad * rad := by
    have h := Real.sin_sq_add_cos_sq θ
    nlinarith [h]
  have hs : Real.sqrt (Real.cos θ * rad * (Real.cos θ * rad) +
      Real.sin θ * rad * (Real.sin θ * rad)) = rad := by
    rw [hsq, Real.sqrt_mul_self (le_trans (by norm_num) hrad0)]
  refine ⟨?_, ?_, ?_, ?_, rfl, rfl, by norm_num⟩
  · show (0.1 : ℝ) ≤ Real.sqrt (Real.cos θ * rad * (Real.cos θ * rad) +
      Real.sin θ * rad * (Real.sin θ * rad))
    rw [hs]; exact hrad0
  · show Real.sqrt (Real.cos θ * rad * (Real.cos θ * rad) +
      Real.sin θ * rad * (Real.sin θ * rad)) < 0.4
    rw [hs]; exact hrad1
  · show |((rnd j).rvx - 0.5) * 0.01| ≤ 0.005
    rw [abs_le]; constructor <;> nlinarith
  · show |((rnd j).rvy - 0.5) * 0.01| ≤ 0.005
    rw [abs_le]; constructor <;> nlinarith

set_option maxHeartbeats 1000000 in
/-- C5 witness: a particle carried beyond planar radius 4 is recycled near
the origin within the same call. -/
theorem respawn_boundary_witness :
    ∃ q : Particle, (update defaultParams [⟨5, 0, 0, 0, 0, 0, 1, 0.5⟩] [] [] 1 [] 0
        (constDraws halfDraws))[0]? = some q ∧
      0.1 ≤ Real.sqrt (q.px * q.px + q.py * q.py) ∧
      Real.sqrt (q.px * q.px + q.py * q.py) < 0.4 ∧
      |q.vx| ≤ 0.005 ∧ |q.vy| ≤ 0.005 ∧ q.vz = 0 ∧
      (respawnParticle (constDraws halfDraws 0) (integrate defaultParams
        (totalAccel defaultParams (effectiveWells (scaleWells [] [])) [] 0
          (constDraws halfDraws 0) ⟨5, 0, 0, 0, 0, 0, 1, 0.5⟩) 1
        ⟨5, 0, 0, 0, 0, 0, 1, 0.5⟩)).lifetime = 0 ∧
      q.lifetime = 0.001 :=
  respawn_boundary defaultParams [⟨5, 0, 0, 0, 0, 0, 1, 0.5⟩] [] [] 1 [] 0
    (constDraws halfDraws) 0 ⟨5, 0, 0, 0, 0, 0, 1, 0.5⟩
    (fun i => by norm_num [constDraws, halfDraws, Draws.valid])
    (by simp)
    (by
      norm_num [integrate, totalAccel, turbAccel, effectiveWells, scaleWells,
        scaleWellsFrom, mergedWell, Vec3.add, Vec3.zero, defaultParams,
        constDraws, halfDraws])

/-- The clamp never increases the speed. -/
lemma clampSpeed_le_self (maxV vx vy vz : ℝ) (hm : 0 < maxV) :
    Real.sqrt
      (vx * (if Real.sqrt (vx * vx + vy * vy + vz * vz) > maxV then
          maxV / Real.sqrt (vx * vx + vy * vy + vz * vz) else 1) *
        (vx * (if Real.sqrt (vx * vx + vy * vy + vz * vz) > maxV then
          maxV / Real.sqrt (vx * vx + vy * vy + vz * vz) else 1)) +
       vy * (if Real.sqrt (vx * vx + vy * vy + vz * vz) > maxV then
          maxV / Real.sqrt (vx * vx + vy * vy + vz * vz) else 1) *
        (vy * (if Real.sqrt (vx * vx + vy * vy + vz * vz) > maxV then
          maxV / Real.sqrt (vx * vx + vy * vy + vz * vz) else 1)) +
       vz * (if Real.sqrt (vx * vx + vy * vy + vz * vz) > maxV then
          maxV / Real.sqrt (vx * vx + vy * vy + vz * vz) else 1) *
        (vz * (if Real.sqrt (vx * vx + vy * vy + vz * vz) > maxV then
          maxV / Real.sqrt (vx * vx + vy * vy + vz * vz) else 1)))
      ≤ Real.sqrt (vx * vx + vy * vy + vz * vz) := by
  set w := Real.sqrt (vx * vx + vy * vy + vz * vz) with hw
  by_cases h : w > maxV
  · rw [if_pos h]
    have hw0 : 0 < w := lt_trans hm h
    have hs0 : 0 ≤ maxV / w := le_of_lt (div_pos hm hw0)
    have hsum : vx * (maxV / w) * (vx * (maxV / w)) + vy * (maxV / w) * (vy * (maxV / w)) +
        vz * (maxV / w) * (vz * (maxV / w))
        = maxV / w * (maxV / w) * (vx * vx + vy * vy + vz * vz) := by ring
    rw [hsum, Real.sqrt_mul (mul_nonneg hs0 hs0), Real.sqrt_mul_self hs0, ← hw,
      div_mul_cancel₀ maxV (ne_of_gt hw0)]
    exact le_of_lt h
  · rw [if_neg h]
    simp only [mul_one]
    exact le_of_eq hw.symm

/-- With no wells, no path points and chaos off, the accumulated
acceleration is zero. -/
lemma totalAccel_nil (pp : PhysicsParams) (now : ℝ) (r : Draws) (p : Particle)
    (hc : pp.chaosMode = false) :
    totalAccel pp [] [] now r p = Vec3.zero := by
  simp [totalAccel, turbAccel, hc, Vec3.add, Vec3.zero]

/-- With zero acceleration the integration multiplies the speed by `drag`,
then the clamp can only lower it further. -/
lemma integrate_zero_speed (pp : PhysicsParams) (dt : ℝ) (p : Particle)
    (hd0 : 0 ≤ pp.drag) (hm : 0 < pp.maxVelocity) :
    (integrate pp Vec3.zero dt p).speed ≤ pp.drag * p.speed := by
  have h1 : (integrate pp Vec3.zero dt p).speed ≤
      Real.sqrt (((p.vx + Vec3.zero.x * dt) * pp.drag) * ((p.vx + Vec3.zero.x * dt) * pp.drag) +
        ((p.vy + Vec3.zero.y * dt) * pp.drag) * ((p.vy + Vec3.zero.y * dt) * pp.drag) +
        ((p.vz + Vec3.zero.z * dt) * pp.drag) * ((p.vz + Vec3.zero.z * dt) * pp.drag)) :=
    clampSpeed_le_self pp.maxVelocity ((p.vx + Vec3.zero.x * dt) * pp.drag)
      ((p.vy + Vec3.zero.y * dt) * pp.drag) ((p.vz + Vec3.zero.z * dt) * pp.drag) hm
  refine le_trans h1 (le_of_eq ?_)
  simp only [show Vec3.zero.x = (0 : ℝ) from rfl, show Vec3.zero.y = (0 : ℝ) from rfl,
    show Vec3.zero.z = (0 : ℝ) from rfl, zero_mul, add_zero]
  rw [show p.vx * pp.drag * (p.vx * pp.drag) + p.vy * pp.drag * (p.vy * pp.drag) +
      p.vz * pp.drag * (p.vz * pp.drag)
      = pp.drag * pp.drag * (p.vx * p.vx + p.vy * p.vy + p.vz * p.vz) from by ring,
    Real.sqrt_mul (mul_nonneg hd0 hd0), Real.sqrt_mul_self hd0]
  rfl

/-! ## C7 -/

/-- C7 counterexample: with zero wells, zero path points and chaos off, a
particle that crosses the respawn boundary gets a fresh random velocity, so
its speed can increase across an `update` call — the claimed monotone
non-increase fails. -/
theorem drag_decay_counterexample :
    ((update defaultParams [⟨5, 0, 0, 0, 0, 0, 1, 0.5⟩] [] [] 1 [] 0
        (constDraws upDraws))[0]?).map Particle.speed
      = some (Real.sqrt 0.0000125) ∧
    Particle.speed ⟨5, 0, 0, 0, 0, 0, 1, 0.5⟩ = 0 ∧
    ¬ (Real.sqrt 0.0000125 ≤ Particle.speed ⟨5, 0, 0, 0, 0, 0, 1, 0.5⟩) := by
  have hspeed : Particle.speed ⟨5, 0, 0, 0, 0, 0, 1, 0.5⟩ = 0 := by
    simp [Particle.speed]
  refine ⟨?_, hspeed, ?_⟩
  · rw [update, updateLoop_getElem?]
    simp only [List.getElem?_cons_zero, Option.map_some']
    rw [stepParticle_respawn _ _ _ _ _ _ _ (by
      norm_num [integrate, totalAccel, turbAccel, Vec3.add, Vec3.zero,
        defaultParams, constDraws, upDraws, effectiveWells, scaleWells,
        scaleWellsFrom, mergedWell])]
    simp only [Particle.speed, constDraws, upDraws]
    norm_num
  · rw [hspeed, not_le]
    exact Real.sqrt_pos.mpr (by norm_num)

/-- C7 amended: with zero wells, zero path points and chaos off, an
`update` call multiplies the velocity of every particle that does not cross
the respawn boundary by `drag` (then possibly clamps), so its speed is at
most `drag` times — and in particular never more than — its previous speed;
a particle that does cross the boundary is instead re-randomized by the
respawn and its speed may grow. -/
theorem drag_decay_no_respawn (pp : PhysicsParams) (ps : List Particle)
    (dt now : ℝ) (rnd : ℕ → Draws) (j : ℕ) (p : Particle)
    (hc : pp.chaosMode = false) (hd0 : 0 ≤ pp.drag) (hd1 : pp.drag ≤ 1)
    (hm : 0 < pp.maxVelocity) (hp : ps[j]? = some p)
    (hnb : ¬ ((integrate pp (totalAccel pp [] [] now (rnd j) p) dt p).px *
          (integrate pp (totalAccel pp [] [] now (rnd j) p) dt p).px +
        (integrate pp (totalAccel pp [] [] now (rnd j) p) dt p).py *
          (integrate pp (totalAccel pp [] [] now (rnd j) p) dt p).py > 16)) :
    ∃ q : Particle, (update pp ps [] [] dt [] now rnd)[j]? = some q ∧
      q.speed ≤ pp.drag * p.speed ∧ q.speed ≤ p.speed := by
  have hwells : effectiveWells (scaleWells [] []) = [] := rfl
  refine ⟨stepParticle pp [] [] now dt (rnd j) p, ?_, ?_, ?_⟩
  · rw [update, updateLoop_getElem?, hp, hwells]
    simp
  · rw [stepParticle_no_respawn pp [] [] now dt (rnd j) p hnb]
    rw [speed_set_lifetime]
    rw [totalAccel_nil pp now (rnd j) p hc]
    exact integrate_zero_speed pp dt p hd0 hm
  · rw [stepParticle_no_respawn pp [] [] now dt (rnd j) p hnb]
    rw [speed_set_lifetime]
    rw [totalAccel_nil pp now (rnd j) p hc]
    exact le_trans (integrate_zero_speed pp dt p hd0 hm)
      (mul_le_of_le_one_left (Real.sqrt_nonneg _) hd1)

/-- C7 witness: a slow particle near the origin decays under drag. -/
theorem drag_decay_no_respawn_witness :
    ∃ q : Particle, (update defaultParams [⟨0.3, 0, 0, 0, 0, 0, 1, 0.5⟩] [] [] 1 [] 0
        (constDraws halfDraws))[0]? = some q ∧
      q.speed ≤ defaultParams.drag * Particle.speed ⟨0.3, 0, 0, 0, 0, 0, 1, 0.5⟩ ∧
      q.speed ≤ Particle.speed ⟨0.3, 0, 0, 0, 0, 0, 1, 0.5⟩ :=
  drag_decay_no_respawn defaultParams [⟨0.3, 0, 0, 0, 0, 0, 1, 0.5⟩] 1 0
    (constDraws halfDraws) 0 ⟨0.3, 0, 0, 0, 0, 0, 1, 0.5⟩
    rfl (by norm_num [defaultParams]) (by norm_num [defaultParams])
    (by norm_num [defaultParams]) (by simp)
    (by
      norm_num [integrate, totalAccel, turbAccel, Vec3.add, Vec3.zero,
        defaultParams, constDraws, halfDraws])

/-- A stepped particle's lifetime stays in `[0, 1]` when it started at or
above `0`. -/
lemma stepParticle_lifetime_bounds (pp : PhysicsParams) (wells : List Well)
    (paths : List PathPoint) (now dt : ℝ) (r : Draws) (p : Particle)
    (h0 : 0 ≤ p.lifetime) :
    0 ≤ (stepParticle pp wells paths now dt r p).lifetime ∧
      (stepParticle pp wells paths now dt r p).lifetime ≤ 1 := by
  by_cases h : (integrate pp (totalAccel pp wells paths now r p) dt p).px *
        (integrate pp (totalAccel pp wells paths now r p) dt p).px +
      (integrate pp (totalAccel pp wells paths now r p) dt p).py *
        (integrate pp (totalAccel pp wells paths now r p) dt p).py > 16
  · rw [stepParticle_respawn pp wells paths now dt r p h]
    constructor <;> norm_num
  · rw [stepParticle_no_respawn pp wells paths now dt r p h]
    refine ⟨le_min (by norm_num) (by linarith), min_le_left _ _⟩

/-- `applyExplosion` touches only the x/y velocity of each particle. -/
lemma explosionKick_frame (x y s : ℝ) (p : Particle) :
    (explosionKick x y s p).px = p.px ∧ (explosionKick x y s p).py = p.py ∧
    (explosionKick x y s p).pz = p.pz ∧ (explosionKick x y s p).mass = p.mass ∧
    (explosionKick x y s p).lifetime = p.lifetime ∧
    (explosionKick x y s p).vz = p.vz := by
  simp only [explosionKick]
  split_ifs with h <;> exact ⟨rfl, rfl, rfl, rfl, rfl, rfl⟩

/-- `applyImplosion` touches only the x/y velocity of each particle. -/
lemma implosionKick_frame (x y s : ℝ) (p : Particle) :
    (implosionKick x y s p).px = p.px ∧ (implosionKick x y s p).py = p.py ∧
    (implosionKick x y s p).pz = p.pz ∧ (implosionKick x y s p).mass = p.mass ∧
    (implosionKick x y s p).lifetime = p.lifetime ∧
    (implosionKick x y s p).vz = p.vz := by
  simp only [implosionKick]
  split_ifs with h <;> exact ⟨rfl, rfl, rfl, rfl, rfl, rfl⟩

/-- One external call keeps every lifetime inside `[0, 1]`. -/
lemma applyOp_lifetime_bounds (ps : List Particle) (op : SimOp)
    (hps : ∀ p ∈ ps, 0 ≤ p.lifetime ∧ p.lifetime ≤ 1) :
    ∀ q ∈ applyOp ps op, 0 ≤ q.lifetime ∧ q.lifetime ≤ 1 := by
  intro q hq
  cases op with
  | advance pp gw hv dt paths now rnd =>
    obtain ⟨j, p, hp, rfl⟩ := mem_updateLoop hq
    exact stepParticle_lifetime_bounds pp _ paths now dt (rnd j) p (hps p hp).1
  | explosion x y s =>
    obtain ⟨p, hp, rfl⟩ := List.mem_map.mp hq
    rw [(explosionKick_frame x y s p).2.2.2.2.1]
    exact hps p hp
  | implosion x y s =>
    obtain ⟨p, hp, rfl⟩ := List.mem_map.mp hq
    rw [(implosionKick_frame x y s p).2.2.2.2.1]
    exact hps p hp

/-! ## C8 -/

/-- C8 amended: every particle's lifetime stays in `[0, 1]` across any
sequence of `update` and impulse calls; an `update` advances the lifetime
of a non-respawned particle by exactly `0.001`, saturating at `1`; and a
particle respawned during an `update` has its lifetime reset to `0` by the
respawn and then advanced by the same iteration's increment, so it ends
that call at `0.001` (not `0`). -/
theorem lifetime_policy :
    (∀ (ps : List Particle) (ops : List SimOp),
      (∀ p ∈ ps, 0 ≤ p.lifetime ∧ p.lifetime ≤ 1) →
      ∀ q ∈ runOps ps ops, 0 ≤ q.lifetime ∧ q.lifetime ≤ 1) ∧
    (∀ (pp : PhysicsParams) (wells : List Well) (paths : List PathPoint)
      (now dt : ℝ) (r : Draws) (p : Particle),
      ¬ ((integrate pp (totalAccel pp wells paths now r p) dt p).px *
            (integrate pp (totalAccel pp wells paths now r p) dt p).px +
          (integrate pp (totalAccel pp wells paths now r p) dt p).py *
            (integrate pp (totalAccel pp wells paths now r p) dt p).py > 16) →
      (stepParticle pp wells paths now dt r p).lifetime =
        min 1 (p.lifetime + 0.001)) ∧
    (∀ (pp : PhysicsParams) (wells : List Well) (paths : List PathPoint)
      (now dt : ℝ) (r : Draws) (p : Particle),
      (integrate pp (totalAccel pp wells paths now r p) dt p).px *
            (integrate pp (totalAccel pp wells paths now r p) dt p).px +
          (integrate pp (totalAccel pp wells paths now r p) dt p).py *
            (integrate pp (totalAccel pp wells paths now r p) dt p).py > 16 →
      (stepParticle pp wells paths now dt r p).lifetime = 0.001) := by
  refine ⟨?_, ?_, ?_⟩
  · intro ps ops
    induction ops generalizing ps with
    | nil => intro hps q hq; exact hps q hq
    | cons op ops ih =>
      intro hps q hq
      exact ih (applyOp ps op) (applyOp_lifetime_bounds ps op hps) q hq
  · intro pp wells paths now dt r p h
    rw [stepParticle_no_respawn pp wells paths now dt r p h]
  · intro pp wells paths now dt r p h
    rw [stepParticle_respawn pp wells paths now dt r p h]
    norm_num

/-- C8 counterexample: a particle respawned during an `update` ends that
call with lifetime `0.001`, not `0` (the respawn resets the lifetime but
the same loop iteration still adds the increment); the third conjunct shows
the result also differs from the non-respawn value `min 1 (0.5 + 0.001)`,
so the respawn did fire. -/
theorem lifetime_respawn_counterexample :
    ((update defaultParams [⟨5, 0, 0, 0, 0, 0, 1, 0.5⟩] [] [] 1 [] 0
        (constDraws halfDraws))[0]?).map Particle.lifetime = some 0.001 ∧
    (0.001 : ℝ) ≠ 0 ∧ (0.001 : ℝ) ≠ min 1 (0.5 + 0.001) := by
  refine ⟨?_, by norm_num, by norm_num⟩
  rw [update, updateLoop_getElem?]
  simp only [List.getElem?_cons_zero, Option.map_some']
  rw [stepParticle_respawn _ _ _ _ _ _ _ (by
    norm_num [integrate, totalAccel, turbAccel, Vec3.add, Vec3.zero,
      defaultParams, constDraws, halfDraws, effectiveWells, scaleWells,
      scaleWellsFrom, mergedWell])]
  norm_num

/-- The update loop returns one particle per input particle. -/
lemma updateLoop_length (pp : PhysicsParams) (wells : List Well)
    (paths : List PathPoint) (now dt : ℝ) (rnd : ℕ → Draws) :
    ∀ (i : ℕ) (ps : List Particle),
      (updateLoop pp wells paths now dt rnd i ps).length = ps.length := by
  intro i ps
  induction ps generalizing i with
  | nil => rfl
  | cons p ps ih => simp [updateLoop, ih]

/-- No external call changes the number of particles. -/
lemma applyOp_length (ps : List Particle) (op : SimOp) :
    (applyOp ps op).length = ps.length := by
  cases op with
  | advance pp gw hv dt paths now rnd => exact updateLoop_length pp _ _ now dt rnd 0 ps
  | explosion x y s => exact List.length_map ps _
  | implosion x y s => exact List.length_map ps _

/-! ## C9 -/

/-- C9: `applyExplosion` and `applyImplosion` change only x/y velocities —
every particle's position, mass, lifetime and z-velocity are untouched —
and no sequence of `update` / impulse calls ever changes the particle
count. -/
theorem impulse_frame_and_count :
    (∀ (x y s : ℝ) (ps : List Particle),
      (applyExplosion x y s ps).map (fun p => (p.px, p.py, p.pz, p.mass, p.lifetime, p.vz))
        = ps.map (fun p => (p.px, p.py, p.pz, p.mass, p.lifetime, p.vz))) ∧
    (∀ (x y s : ℝ) (ps : List Particle),
      (applyImplosion x y s ps).map (fun p => (p.px, p.py, p.pz, p.mass, p.lifetime, p.vz))
        = ps.map (fun p => (p.px, p.py, p.pz, p.mass, p.lifetime, p.vz))) ∧
    (∀ (ps : List Particle) (ops : List SimOp),
      (runOps ps ops).length = ps.length) := by
  refine ⟨?_, ?_, ?_⟩
  · intro x y s ps
    rw [applyExplosion, List.map_map]
    refine List.map_congr_left ?_
    intro p _
    obtain ⟨h1, h2, h3, h4, h5, h6⟩ := explosionKick_frame x y s p
    simp [Function.comp, h1, h2, h3, h4, h5, h6]
  · intro x y s ps
    rw [applyImplosion, List.map_map]
    refine List.map_congr_left ?_
    intro p _
    obtain ⟨h1, h2, h3, h4, h5, h6⟩ := implosionKick_frame x y s p
    simp [Function.comp, h1, h2, h3, h4, h5, h6]
  · intro ps ops
    induction ops generalizing ps with
    | nil => rfl
    | cons op ops ih =>
      exact (ih (applyOp ps op)).trans (applyOp_length ps op)

/-- Scaling a two-well list, written out. -/
lemma scaleWells_pair (g1 g2 : WellInput) (hv : List HandVel) :
    scaleWells [g1, g2] hv =
      [⟨g1.x * 1.5, g1.y * 1.2, g1.z * 0.5, g1.strength,
          (hv.getD 0 ⟨0, 0⟩).vx, (hv.getD 0 ⟨0, 0⟩).vy⟩,
       ⟨g2.x * 1.5, g2.y * 1.2, g2.z * 0.5, g2.strength,
          (hv.getD 1 ⟨0, 0⟩).vx, (hv.getD 1 ⟨0, 0⟩).vy⟩] := rfl

/-- The merge fires exactly when two wells sit closer than `0.5`. -/
lemma mergedWell_pair (w0 w1 : Well)
    (hlt : Real.sqrt ((w0.x - w1.x) * (w0.x - w1.x) +
      (w0.y - w1.y) * (w0.y - w1.y)) < 0.5) :
    mergedWell [w0, w1] = some
      { x := (w0.x + w1.x) / 2, y := (w0.y + w1.y) / 2, z := (w0.z + w1.z) / 2,
        strength := (w0.strength + w1.strength) *
          (1 + (1 - Real.sqrt ((w0.x - w1.x) * (w0.x - w1.x) +
            (w0.y - w1.y) * (w0.y - w1.y)) / 0.5) * 0.5),
        vx := (w0.vx + w1.vx) / 2, vy := (w0.vy + w1.vy) / 2 } := by
  simp only [mergedWell]
  rw [if_pos hlt]

/-- Two wells at world-space planar distance `0.5` or more do not merge. -/
lemma mergedWell_pair_far (w0 w1 : Well)
    (hge : ¬ Real.sqrt ((w0.x - w1.x) * (w0.x - w1.x) +
      (w0.y - w1.y) * (w0.y - w1.y)) < 0.5) :
    mergedWell [w0, w1] = none := by
  simp only [mergedWell]
  rw [if_neg hge]

lemma effectiveWells_merge {wells : List Well} {m : Well}
    (h : mergedWell wells = some m) : effectiveWells wells = [m] := by
  unfold effectiveWells
  rw [h]

lemma effectiveWells_none {wells : List Well}
    (h : mergedWell wells = none) : effectiveWells wells = wells := by
  unfold effectiveWells
  rw [h]

/-! ## C2 -/

/-- C2 counterexample: two wells supplied at planar distance `0.3` (as the
claim measures it, in caller coordinates) with strengths `1` and `1` merge
with strength `2.1`, not the claimed `2.4`: the merge distance is computed
on the rescaled wells, whose distance here is `0.45`. -/
theorem merge_strength_counterexample :
    Real.sqrt (((0.3 : ℝ) - 0) * ((0.3 : ℝ) - 0) + ((0 : ℝ) - 0) * ((0 : ℝ) - 0)) = 0.3 ∧
    (mergedWell (scaleWells [⟨0, 0, 0, 1⟩, ⟨0.3, 0, 0, 1⟩] [])).map Well.strength
      = some 2.1 ∧
    (2.1 : ℝ) ≠ 2 * (1 + (1 - 0.3 / 0.5) * 0.5) := by
  have hs : Real.sqrt (((0 : ℝ) - 0.45) * ((0 : ℝ) - 0.45) +
      ((0 : ℝ) - 0) * ((0 : ℝ) - 0)) = 0.45 := by
    rw [show ((0 : ℝ) - 0.45) * ((0 : ℝ) - 0.45) + ((0 : ℝ) - 0) * ((0 : ℝ) - 0)
        = (0.45 : ℝ) * 0.45 from by norm_num, Real.sqrt_mul_self (by norm_num)]
  refine ⟨?_, ?_, by norm_num⟩
  · rw [show ((0.3 : ℝ) - 0) * ((0.3 : ℝ) - 0) + ((0 : ℝ) - 0) * ((0 : ℝ) - 0)
        = (0.3 : ℝ) * 0.3 from by norm_num, Real.sqrt_mul_self (by norm_num)]
  · rw [show scaleWells [⟨0, 0, 0, 1⟩, ⟨0.3, 0, 0, 1⟩] [] =
        [⟨0, 0, 0, 1, 0, 0⟩, ⟨0.45, 0, 0, 1, 0, 0⟩] from by
      rw [scaleWells_pair]; norm_num [List.getD]]
    rw [mergedWell_pair ⟨0, 0, 0, 1, 0, 0⟩ ⟨0.45, 0, 0, 1, 0, 0⟩ (by
      show Real.sqrt (((0 : ℝ) - 0.45) * ((0 : ℝ) - 0.45) +
        ((0 : ℝ) - 0) * ((0 : ℝ) - 0)) < 0.5
      rw [hs]; norm_num)]
    simp only [Option.map_some']
    show some (((1 : ℝ) + 1) * (1 + (1 - Real.sqrt (((0 : ℝ) - 0.45) * ((0 : ℝ) - 0.45) +
      ((0 : ℝ) - 0) * ((0 : ℝ) - 0)) / 0.5) * 0.5)) = some 2.1
    rw [hs]
    norm_num

/-- C2 amended: when `update` receives exactly two wells whose planar
distance `d` *after the world-space rescale* (`x*1.5`, `y*1.2`) is below
`0.5`, it replaces them by one synthetic well at the midpoint of the scaled
positions, with strength `(s1+s2)·(1 + (1 − d/0.5)·0.5)` and velocity the
average of the two hand velocities; at scaled distance `0.3` with unit
strengths the merged strength is `2.4`. -/
theorem merge_rule_scaled (g1 g2 : WellInput) (hv : List HandVel) (d : ℝ)
    (hd : d = Real.sqrt ((g1.x * 1.5 - g2.x * 1.5) * (g1.x * 1.5 - g2.x * 1.5) +
      (g1.y * 1.2 - g2.y * 1.2) * (g1.y * 1.2 - g2.y * 1.2)))
    (hlt : d < 0.5) :
    effectiveWells (scaleWells [g1, g2] hv) =
      [{ x := (g1.x * 1.5 + g2.x * 1.5) / 2, y := (g1.y * 1.2 + g2.y * 1.2) / 2,
         z := (g1.z * 0.5 + g2.z * 0.5) / 2,
         strength := (g1.strength + g2.strength) * (1 + (1 - d / 0.5) * 0.5),
         vx := ((hv.getD 0 ⟨0, 0⟩).vx + (hv.getD 1 ⟨0, 0⟩).vx) / 2,
         vy := ((hv.getD 0 ⟨0, 0⟩).vy + (hv.getD 1 ⟨0, 0⟩).vy) / 2 }] := by
  subst hd
  rw [scaleWells_pair]
  exact effectiveWells_merge (mergedWell_pair _ _ hlt)

/-- C2 witness: the spec's worked example holds once the distance is read
in scaled coordinates — scaled distance `0.3`, strengths `1` and `1`,
merged strength exactly `2.4`. -/
theorem merge_rule_scaled_witness :
    (effectiveWells (scaleWells [⟨0, 0, 0, 1⟩, ⟨0.2, 0, 0, 1⟩] [])).map Well.strength
      = [2.4] := by
  rw [merge_rule_scaled ⟨0, 0, 0, 1⟩ ⟨0.2, 0, 0, 1⟩ [] 0.3 (by
    rw [show (((⟨0, 0, 0, 1⟩ : WellInput).x * 1.5 - (⟨0.2, 0, 0, 1⟩ : WellInput).x * 1.5) *
        ((⟨0, 0, 0, 1⟩ : WellInput).x * 1.5 - (⟨0.2, 0, 0, 1⟩ : WellInput).x * 1.5) +
        ((⟨0, 0, 0, 1⟩ : WellInput).y * 1.2 - (⟨0.2, 0, 0, 1⟩ : WellInput).y * 1.2) *
        ((⟨0, 0, 0, 1⟩ : WellInput).y * 1.2 - (⟨0.2, 0, 0, 1⟩ : WellInput).y * 1.2))
        = (0.3 : ℝ) * 0.3 from by norm_num, Real.sqrt_mul_self (by norm_num)])
    (by norm_num)]
  norm_num

/-! ## C3 -/

/-- C3 counterexample: with chaos mode toggled on from the defaults
(`chaosFactor = 3`), the gravitational constant used for well forces is
`0.0009 = G·6`, while the claimed `G·chaosFactor` would be `0.00045`. -/
theorem chaos_gravity_counterexample :
    (toggleChaosMode defaultParams).chaosMode = true ∧
    effectiveG (toggleChaosMode defaultParams) = 0.0009 ∧
    (toggleChaosMode defaultParams).G * (toggleChaosMode defaultParams).chaosFactor
      = 0.00045 ∧
    (0.0009 : ℝ) ≠ 0.00045 := by
  refine ⟨rfl, ?_, ?_, by norm_num⟩ <;>
    norm_num [effectiveG, toggleChaosMode, defaultParams]

/-- C3 amended: the gravitational constant used for well forces in `update`
equals `G` when chaos mode is off and `G · (chaosFactor · 2)` when it is on
— six times `G` at the toggled default `chaosFactor = 3` — not
`G · chaosFactor`. -/
theorem chaos_gravity_scale :
    (∀ pp : PhysicsParams, pp.chaosMode = false → effectiveG pp = pp.G) ∧
    (∀ pp : PhysicsParams, pp.chaosMode = true →
      effectiveG pp = pp.G * (pp.chaosFactor * 2)) ∧
    effectiveG (toggleChaosMode defaultParams) = 6 * defaultParams.G := by
  refine ⟨?_, ?_, ?_⟩
  · intro pp h; simp [effectiveG, h]
  · intro pp h; simp [effectiveG, h]
  · norm_num [effectiveG, toggleChaosMode, defaultParams]

/-! ## C4 -/

/-- C4: when a particle sits exactly at a well's position, the guard
`dist < fieldRadius` passes with `dist = 0`, and the source then evaluates
`invDist = 1 / dist` — a division by zero: the `minDistance` floor enters
only the force denominator (`softDist = max 0 0.05 = 0.05` here), never the
direction normalization.  In this real-number embedding `1/0 = 0`, so the
contribution collapses to the zero vector; in the JavaScript source `1/0`
is `Infinity` and `0 * Infinity` is `NaN`, which then propagates into the
particle's velocity and position. -/
theorem coincident_well_division_by_zero :
    wellDist ⟨0, 0, 0, 0, 0, 0, 1, 0.5⟩ ⟨0, 0, 0, 1, 0, 0⟩ = 0 ∧
    wellDist ⟨0, 0, 0, 0, 0, 0, 1, 0.5⟩ ⟨0, 0, 0, 1, 0, 0⟩ < defaultParams.fieldRadius ∧
    max (wellDist ⟨0, 0, 0, 0, 0, 0, 1, 0.5⟩ ⟨0, 0, 0, 1, 0, 0⟩) defaultParams.minDistance
      = 0.05 ∧
    wellAccel defaultParams ⟨0, 0, 0, 0, 0, 0, 1, 0.5⟩ ⟨0, 0, 0, 1, 0, 0⟩ = ⟨0, 0, 0⟩ := by
  have h0 : wellDist ⟨0, 0, 0, 0, 0, 0, 1, 0.5⟩ ⟨0, 0, 0, 1, 0, 0⟩ = 0 := by
    simp [wellDist]
  refine ⟨h0, ?_, ?_, ?_⟩
  · rw [h0]; norm_num [defaultParams]
  · rw [h0]; norm_num [defaultParams]
  · simp [wellAccel, h0, defaultParams]
    exact fun _ => rfl

/-! ## C6 -/

/-- C6 counterexample: a particle at planar distance `1.0` from the
supplied impulse point `(1, 0)` (in the caller's coordinates) receives an
x-velocity increment of `0.16/3 ≈ 0.0533`, not the claimed
`0.08·(1 − 1/1.5) ≈ 0.0267`: the code measures distances from the scaled
point `(1.5, 0)`, which is `0.5` away from the particle. -/
theorem explosion_magnitude_counterexample :
    Real.sqrt (((2 : ℝ) - 1) * ((2 : ℝ) - 1) + ((0 : ℝ) - 0) * ((0 : ℝ) - 0)) = 1 ∧
    (explosionKick 1 0 1 ⟨2, 0, 0, 0, 0, 0, 1, 0.5⟩).vx = 0 + 0.16 / 3 ∧
    (0.16 / 3 : ℝ) ≠ 0.08 * (1 - 1 / 1.5) := by
  have hs : Real.sqrt (((2 : ℝ) - 1 * 1.5) * ((2 : ℝ) - 1 * 1.5) +
      ((0 : ℝ) - 0 * 1.2) * ((0 : ℝ) - 0 * 1.2)) = 0.5 := by
    rw [show ((2 : ℝ) - 1 * 1.5) * ((2 : ℝ) - 1 * 1.5) +
        ((0 : ℝ) - 0 * 1.2) * ((0 : ℝ) - 0 * 1.2) = (0.5 : ℝ) * 0.5 from by norm_num,
      Real.sqrt_mul_self (by norm_num)]
  refine ⟨?_, ?_, by norm_num⟩
  · rw [show ((2 : ℝ) - 1) * ((2 : ℝ) - 1) + ((0 : ℝ) - 0) * ((0 : ℝ) - 0)
        = (1 : ℝ) * 1 from by norm_num, Real.sqrt_mul_self (by norm_num)]
  · simp only [explosionKick]
    rw [if_pos ⟨by rw [hs]; norm_num, by rw [hs]; norm_num⟩]
    show (0 : ℝ) + ((2 : ℝ) - 1 * 1.5) * (1 / Real.sqrt (((2 : ℝ) - 1 * 1.5) *
        ((2 : ℝ) - 1 * 1.5) + ((0 : ℝ) - 0 * 1.2) * ((0 : ℝ) - 0 * 1.2))) *
      (0.08 * 1 * (1 - Real.sqrt (((2 : ℝ) - 1 * 1.5) * ((2 : ℝ) - 1 * 1.5) +
        ((0 : ℝ) - 0 * 1.2) * ((0 : ℝ) - 0 * 1.2)) / 1.5)) = 0 + 0.16 / 3
    rw [hs]
    norm_num

/-- C6 amended: a particle at planar distance `d`, `0.01 < d < 1.5`, from
the *scaled* impulse point `(x·1.5, y·1.2)` receives a velocity increment
of magnitude `0.08·strength·(1 − d/1.5)` directed away from that point (for
an explosion supplied at `(0, 0)` the scaled point coincides with the
origin and the claimed figures hold as stated); the position is
unchanged. -/
theorem explosion_world_magnitude (x y s : ℝ) (p : Particle) (d : ℝ)
    (hd : d = Real.sqrt ((p.px - x * 1.5) * (p.px - x * 1.5) +
      (p.py - y * 1.2) * (p.py - y * 1.2)))
    (h1 : 0.01 < d) (h2 : d < 1.5) (hs : 0 ≤ s) :
    (explosionKick x y s p).vx
      = p.vx + (p.px - x * 1.5) / d * (0.08 * s * (1 - d / 1.5)) ∧
    (explosionKick x y s p).vy
      = p.vy + (p.py - y * 1.2) / d * (0.08 * s * (1 - d / 1.5)) ∧
    Real.sqrt (((explosionKick x y s p).vx - p.vx) * ((explosionKick x y s p).vx - p.vx) +
        ((explosionKick x y s p).vy - p.vy) * ((explosionKick x y s p).vy - p.vy))
      = 0.08 * s * (1 - d / 1.5) ∧
    (explosionKick x y s p).px = p.px ∧ (explosionKick x y s p).py = p.py := by
  have hd0 : (0 : ℝ) < d := lt_trans (by norm_num) h1
  have hc1 : Real.sqrt ((p.px - x * 1.5) * (p.px - x * 1.5) +
      (p.py - y * 1.2) * (p.py - y * 1.2)) < 1.5 := by rw [← hd]; exact h2
  have hc2 : Real.sqrt ((p.px - x * 1.5) * (p.px - x * 1.5) +
      (p.py - y * 1.2) * (p.py - y * 1.2)) > 0.01 := by rw [← hd]; exact h1
  have hvx : (explosionKick x y s p).vx
      = p.vx + (p.px - x * 1.5) / d * (0.08 * s * (1 - d / 1.5)) := by
    simp only [explosionKick]
    rw [if_pos ⟨hc1, hc2⟩]
    show p.vx + (p.px - x * 1.5) * (1 / Real.sqrt ((p.px - x * 1.5) * (p.px - x * 1.5) +
        (p.py - y * 1.2) * (p.py - y * 1.2))) *
      (0.08 * s * (1 - Real.sqrt ((p.px - x * 1.5) * (p.px - x * 1.5) +
        (p.py - y * 1.2) * (p.py - y * 1.2)) / 1.5)) = _
    rw [← hd]
    ring
  have hvy : (explosionKick x y s p).vy
      = p.vy + (p.py - y * 1.2) / d * (0.08 * s * (1 - d / 1.5)) := by
    simp only [explosionKick]
    rw [if_pos ⟨hc1, hc2⟩]
    show p.vy + (p.py - y * 1.2) * (1 / Real.sqrt ((p.px - x * 1.5) * (p.px - x * 1.5) +
        (p.py - y * 1.2) * (p.py - y * 1.2))) *
      (0.08 * s * (1 - Real.sqrt ((p.px - x * 1.5) * (p.px - x * 1.5) +
        (p.py - y * 1.2) * (p.py - y * 1.2)) / 1.5)) = _
    rw [← hd]
    ring
  have hpx : (explosionKick x y s p).px = p.px := by
    simp only [explosionKick]
    rw [if_pos ⟨hc1, hc2⟩]
  have hpy : (explosionKick x y s p).py = p.py := by
    simp only [explosionKick]
    rw [if_pos ⟨hc1, hc2⟩]
  have hF0 : (0 : ℝ) ≤ 0.08 * s * (1 - d / 1.5) := by
    have hq : d / 1.5 ≤ 1 := (div_le_one (by norm_num)).mpr (le_of_lt h2)
    have : (0 : ℝ) ≤ 1 - d / 1.5 := by linarith
    exact mul_nonneg (mul_nonneg (by norm_num) hs) this
  have hdd : d * d = (p.px - x * 1.5) * (p.px - x * 1.5) +
      (p.py - y * 1.2) * (p.py - y * 1.2) := by
    rw [hd]
    exact Real.mul_self_sqrt (add_nonneg (mul_self_nonneg _) (mul_self_nonneg _))
  have hne : d ≠ 0 := ne_of_gt hd0
  refine ⟨hvx, hvy, ?_, hpx, hpy⟩
  rw [hvx, hvy]
  simp only [add_sub_cancel_left]
  have key : ∀ dx dy F : ℝ, dx / d * F * (dx / d * F) + dy / d * F * (dy / d * F)
      = (dx * dx + dy * dy) * (F * F) / (d * d) := by
    intro dx dy F
    field_simp
    ring
  rw [key, ← hdd, mul_div_cancel_left₀ _ (mul_ne_zero hne hne),
    Real.sqrt_mul_self hF0]

/-- C6 witness: an explosion at the origin with unit strength gives a
particle at distance `1` the increment `0.08·(1 − 1/1.5)`, directed away
from the origin. -/
theorem explosion_world_magnitude_witness :
    (explosionKick 0 0 1 ⟨1, 0, 0, 0, 0, 0, 1, 0⟩).vx
      = 0 + ((1 : ℝ) - 0 * 1.5) / 1 * (0.08 * 1 * (1 - 1 / 1.5)) ∧
    (explosionKick 0 0 1 ⟨1, 0, 0, 0, 0, 0, 1, 0⟩).vy
      = 0 + ((0 : ℝ) - 0 * 1.2) / 1 * (0.08 * 1 * (1 - 1 / 1.5)) ∧
    Real.sqrt (((explosionKick 0 0 1 ⟨1, 0, 0, 0, 0, 0, 1, 0⟩).vx - 0) *
        ((explosionKick 0 0 1 ⟨1, 0, 0, 0, 0, 0, 1, 0⟩).vx - 0) +
        ((explosionKick 0 0 1 ⟨1, 0, 0, 0, 0, 0, 1, 0⟩).vy - 0) *
        ((explosionKick 0 0 1 ⟨1, 0, 0, 0, 0, 0, 1, 0⟩).vy - 0))
      = 0.08 * 1 * (1 - 1 / 1.5) ∧
    (explosionKick 0 0 1 ⟨1, 0, 0, 0, 0, 0, 1, 0⟩).px = 1 ∧
    (explosionKick 0 0 1 ⟨1, 0, 0, 0, 0, 0, 1, 0⟩).py = 0 :=
  explosion_world_magnitude 0 0 1 ⟨1, 0, 0, 0, 0, 0, 1, 0⟩ 1
    (by
      rw [show (((⟨1, 0, 0, 0, 0, 0, 1, 0⟩ : Particle).px - 0 * 1.5) *
          ((⟨1, 0, 0, 0, 0, 0, 1, 0⟩ : Particle).px - 0 * 1.5) +
          ((⟨1, 0, 0, 0, 0, 0, 1, 0⟩ : Particle).py - 0 * 1.2) *
          ((⟨1, 0, 0, 0, 0, 0, 1, 0⟩ : Particle).py - 0 * 1.2))
          = (1 : ℝ) * 1 from by norm_num, Real.sqrt_mul_self (by norm_num)])
    (by norm_num) (by norm_num) (by norm_num)

/-! ## C10 -/

/-- C10: `update` and the impulses never use the caller's coordinates
directly.  Two supplied wells merge exactly when the planar distance of
their *scaled* positions (`x·1.5`, `y·1.2`) is below `0.5`; each well
descriptor is rescaled to `(1.5x, 1.2y, 0.5z)` before any force
computation; each impulse is the world-space kick at `(1.5x, 1.2y)`; and,
concretely, two wells supplied at caller planar distance `0.4 < 0.5` do
*not* merge, because their scaled distance is `0.6`. -/
theorem world_coordinate_rescale :
    (∀ (g1 g2 : WellInput) (hv : List HandVel),
      (effectiveWells (scaleWells [g1, g2] hv)).length = 1 ↔
        Real.sqrt ((g1.x * 1.5 - g2.x * 1.5) * (g1.x * 1.5 - g2.x * 1.5) +
          (g1.y * 1.2 - g2.y * 1.2) * (g1.y * 1.2 - g2.y * 1.2)) < 0.5) ∧
    (∀ (g : WellInput) (hv : List HandVel),
      scaleWells [g] hv = [⟨g.x * 1.5, g.y * 1.2, g.z * 0.5, g.strength,
        (hv.getD 0 ⟨0, 0⟩).vx, (hv.getD 0 ⟨0, 0⟩).vy⟩]) ∧
    (∀ (x y s : ℝ) (p : Particle),
      explosionKick x y s p = worldExplosionKick (x * 1.5) (y * 1.2) s p) ∧
    (∀ (x y s : ℝ) (p : Particle),
      implosionKick x y s p = worldImplosionKick (x * 1.5) (y * 1.2) s p) ∧
    (Real.sqrt (((0.4 : ℝ) - 0) * ((0.4 : ℝ) - 0) + ((0 : ℝ) - 0) * ((0 : ℝ) - 0)) = 0.4 ∧
      (effectiveWells (scaleWells [⟨0, 0, 0, 1⟩, ⟨0.4, 0, 0, 1⟩] [])).length = 2) := by
  refine ⟨?_, fun g hv => rfl, fun x y s p => rfl, fun x y s p => rfl, ?_, ?_⟩
  · intro g1 g2 hv
    rw [scaleWells_pair]
    by_cases h : Real.sqrt ((g1.x * 1.5 - g2.x * 1.5) * (g1.x * 1.5 - g2.x * 1.5) +
        (g1.y * 1.2 - g2.y * 1.2) * (g1.y * 1.2 - g2.y * 1.2)) < 0.5
    · rw [effectiveWells_merge (mergedWell_pair
        ⟨g1.x * 1.5, g1.y * 1.2, g1.z * 0.5, g1.strength,
          (hv.getD 0 ⟨0, 0⟩).vx, (hv.getD 0 ⟨0, 0⟩).vy⟩
        ⟨g2.x * 1.5, g2.y * 1.2, g2.z * 0.5, g2.strength,
          (hv.getD 1 ⟨0, 0⟩).vx, (hv.getD 1 ⟨0, 0⟩).vy⟩ h)]
      exact iff_of_true rfl h
    · rw [effectiveWells_none (mergedWell_pair_far
        ⟨g1.x * 1.5, g1.y * 1.2, g1.z * 0.5, g1.strength,
          (hv.getD 0 ⟨0, 0⟩).vx, (hv.getD 0 ⟨0, 0⟩).vy⟩
        ⟨g2.x * 1.5, g2.y * 1.2, g2.z * 0.5, g2.strength,
          (hv.getD 1 ⟨0, 0⟩).vx, (hv.getD 1 ⟨0, 0⟩).vy⟩ h)]
      exact iff_of_false (by norm_num) h
  · rw [show ((0.4 : ℝ) - 0) * ((0.4 : ℝ) - 0) + ((0 : ℝ) - 0) * ((0 : ℝ) - 0)
        = (0.4 : ℝ) * 0.4 from by norm_num, Real.sqrt_mul_self (by norm_num)]
  · have hs6 : Real.sqrt (((0 : ℝ) - 0.6) * ((0 : ℝ) - 0.6) +
        ((0 : ℝ) - 0) * ((0 : ℝ) - 0)) = 0.6 := by
      rw [show ((0 : ℝ) - 0.6) * ((0 : ℝ) - 0.6) + ((0 : ℝ) - 0) * ((0 : ℝ) - 0)
          = (0.6 : ℝ) * 0.6 from by norm_num, Real.sqrt_mul_self (by norm_num)]
    rw [show scaleWells [⟨0, 0, 0, 1⟩, ⟨0.4, 0, 0, 1⟩] [] =
        [⟨0, 0, 0, 1, 0, 0⟩, ⟨0.6, 0, 0, 1, 0, 0⟩] from by
      rw [scaleWells_pair]; norm_num [List.getD]]
    rw [effectiveWells_none (mergedWell_pair_far ⟨0, 0, 0, 1, 0, 0⟩ ⟨0.6, 0, 0, 1, 0, 0⟩ (by
      show ¬ Real.sqrt (((0 : ℝ) - 0.6) * ((0 : ℝ) - 0.6) +
        ((0 : ℝ) - 0) * ((0 : ℝ) - 0)) < 0.5
      rw [hs6]; norm_num))]
    rfl

end Gravity

end
